import Mathlib

/-!
Verification development for the Leads-Generator repository.

The Python sources (`app/services/overpass.py`, `app/services/geocode.py`,
`app/main.py`) are shallowly embedded below.  Python strings are modelled as
`String` (lists of characters); Python `Optional[str]` as `Option String`;
Python floats as `Rat` (every IEEE float is an exact rational, and the code
only compares and scales them, so ordering and equality agree); Python dicts
with a fixed key set as structures of `Option` fields (a key being absent or
mapped to a falsy value is what the code tests); network collaborators as
explicit function parameters; raised exceptions as `Except.error`.
-/

/-- Characters that Python `str.strip` / `str.split` / `\s` treat as
whitespace (ASCII range; the repository only manipulates ASCII whitespace). -/
def isPySpace (c : Char) : Bool :=
  c = ' ' || c = '\t' || c = '\n' || c = '\r' || c = '\x0b' || c = '\x0c'

/-- Python `str.strip()` on a list of characters. -/
def pyStripL (l : List Char) : List Char :=
  ((l.dropWhile isPySpace).reverse.dropWhile isPySpace).reverse

/-- Python `str.lower()` for one character (ASCII; the claims only exercise
ASCII letters, and `str.lower` is the identity on the CJK characters that
appear in `generic_names`). -/
def asciiLowerC (c : Char) : Char :=
  if 'A' ≤ c ∧ c ≤ 'Z' then Char.ofNat (c.toNat + 32) else c

/-- Python `str.lower()` on a list of characters. -/
def asciiLowerL (l : List Char) : List Char := l.map asciiLowerC

/-- The single-quote character (used to build test strings and to model
`str.replace` of quotes without an apostrophe literal). -/
def squote : Char := Char.ofNat 39

/-- Python truthiness of an `Optional[str]`: `None` and the empty string are
falsy, every other string is truthy. -/
def strTruthy : Option String → Bool
  | none => false
  | some s => !s.data.isEmpty

/-- Python `x or y` on two `Optional[str]` values: the first operand if it is
truthy, otherwise the second operand. -/
def pyOr (a b : Option String) : Option String :=
  match a with
  | some s => if s.data.isEmpty then b else some s
  | none => b

/-- Python `x or y` where the last operand is a plain string (used for the
category fallback chain in record extraction). -/
def pyOrStr (a : Option String) (b : String) : String :=
  match a with
  | some s => if s.data.isEmpty then b else s
  | none => b

/-- Python `x or y` on two optional floats (`0.0` is falsy), as used for the
coordinate fallback `element.get("lat") or element.get("center", {}).get("lat")`. -/
def pyOrRat (a b : Option Rat) : Option Rat :=
  match a with
  | some x => if x = 0 then b else some x
  | none => b

/-- Python `"sep".join(parts)` for the pipe separator of `get_hash_id`. -/
def joinPipe : List String → String
  | [] => ""
  | [s] => s
  | s :: rest => s ++ "|" ++ joinPipe rest

/-- One step of Python `str.split()` (split on whitespace runs, dropping empty
pieces); `cur` holds the current word reversed. -/
def splitWsGo : List Char → List Char → List (List Char)
  | [], cur => if cur.isEmpty then [] else [cur.reverse]
  | c :: cs, cur =>
    if isPySpace c then
      if cur.isEmpty then splitWsGo cs [] else cur.reverse :: splitWsGo cs []
    else splitWsGo cs (c :: cur)

/-- Python `str.split()` with no separator argument. -/
def splitWs (l : List Char) : List (List Char) := splitWsGo l []

/-- Python `" ".join(words)`. -/
def joinSpace : List (List Char) → List Char
  | [] => []
  | [w] => w
  | w :: ws => w ++ ' ' :: joinSpace ws

/-- Scan (over the reversed character list of the text before a trailing close
delimiter) for the opening delimiter the regex `\s*\(​[^)]*\)\s*$` would pick:
the leftmost opener after the previous closer.  Returns the reversed remainder
of the string before that opener, or `none` when no match exists. -/
def scanGroup (openC closeC : Char) : List Char → Option (List Char) → Option (List Char)
  | [], best => best
  | c :: rest, best =>
    if c = closeC then best
    else if c = openC then scanGroup openC closeC rest (some rest)
    else scanGroup openC closeC rest best

/-- Python `re.sub(r"\s*\(​[^)]*\)\s*$", "", name)` (and the bracket variant):
remove one trailing delimited group, together with the whitespace around it,
when the string ends (up to trailing whitespace) with `closeC` and an `openC`
appears after the previous `closeC`. -/
def stripTrailingGroup (openC closeC : Char) (l : List Char) : List Char :=
  match l.reverse.dropWhile isPySpace with
  | [] => l
  | c :: rest =>
    if c = closeC then
      match scanGroup openC closeC rest none with
      | some remaining => (remaining.dropWhile isPySpace).reverse
      | none => l
    else l

/-- Contact dictionary of a business: the keys `phone`, `website`, `email`,
`facebook`, `instagram` of the Python dict, a `none` field meaning the key is
absent (`src/app/services/overpass.py`, extraction loop). -/
structure Contact where
  phone : Option String := none
  website : Option String := none
  email : Option String := none
  facebook : Option String := none
  instagram : Option String := none
deriving DecidableEq

/-- Address dictionary of a business: the keys `street`, `city`, `postcode`,
`full` of the Python dict. -/
structure Address where
  street : Option String := none
  city : Option String := none
  postcode : Option String := none
  full : Option String := none
deriving DecidableEq

/-- Python truthiness of the optional contact dict: `None` and the empty dict
are falsy. -/
def contactTruthy : Option Contact → Bool
  | none => false
  | some c =>
    c.phone.isSome || c.website.isSome || c.email.isSome || c.facebook.isSome ||
      c.instagram.isSome

/-- Python truthiness of the optional address dict: `None` and the empty dict
are falsy. -/
def addrTruthy : Option Address → Bool
  | none => false
  | some a => a.street.isSome || a.city.isSome || a.postcode.isSome || a.full.isSome

/-- The `Business` dataclass of `src/app/services/overpass.py`. -/
structure Business where
  name : Option String := none
  category : Option String := none
  brand : Option String := none
  contact : Option Contact := none
  opening_hours : Option String := none
  address : Option Address := none
  latitude : Option Rat := none
  longitude : Option Rat := none
  source_id : Option String := none
deriving DecidableEq

/-- Python `str(x).lower().strip() if x else ""` applied to an optional string
(the normalisation used for every component of the identity hash and of the
address key). -/
def lowerStripped (o : Option String) : String :=
  match o with
  | none => ""
  | some s => if s.data.isEmpty then "" else String.mk (pyStripL (asciiLowerL s.data))

/-- `Business.get_hash_id` of the source.  The MD5 hexdigest is modelled as
the joined key string itself: the digest is a function of that string, the
code only ever compares digests for equality, and accidental MD5 collisions
are outside the model (the spec itself only asks for a low accidental
collision probability). -/
def Business.get_hash_id (b : Business) : String :=
  let key_parts := [lowerStripped b.name, lowerStripped b.category, lowerStripped b.brand]
  let key_parts :=
    match b.address with
    | some a =>
      if addrTruthy (some a) then
        key_parts ++ [lowerStripped a.street, lowerStripped a.city, lowerStripped a.postcode]
      else key_parts
    | none => key_parts
  joinPipe key_parts

/-- The generic placeholder names rejected by `Business.is_valid`. -/
def generic_names : List String :=
  ["unknown", "none", "null", "", "na", "n/a", "未命名", "無名",
   "restaurant", "cafe", "shop", "store", "business", "company"]

/-- `Business.is_valid` of the source: a name or brand must be truthy, and the
lowercased trimmed name must be neither a generic placeholder nor of length
at most two. -/
def Business.is_valid (b : Business) : Bool :=
  if ¬ strTruthy b.name ∧ ¬ strTruthy b.brand then false
  else
    let name_lower := String.mk (pyStripL (asciiLowerL (b.name.getD "").data))
    if name_lower ∈ generic_names ∨ name_lower.length ≤ 2 then false
    else true

/-- `normalize_phone` of the source: keep digits and plus signs, rewrite a
leading `00` to `+`, prepend `+91` when the cleaned text has length ten,
return `None` for a falsy input or an empty cleaned text.  (Python `str.slice`
and `startswith` become `List.drop` and `List.take`; `c.isdigit()` is modelled
for ASCII digits, the only digits the claims exercise.) -/
def normalize_phone (phone : Option String) : Option String :=
  match phone with
  | none => none
  | some p =>
    if p.data.isEmpty then none
    else
      let cleaned := p.data.filter (fun c => c.isDigit || c = '+')
      let cleaned := if cleaned.take 2 = ['0', '0'] then '+' :: cleaned.drop 2 else cleaned
      let cleaned :=
        if cleaned ≠ [] ∧ cleaned.length = 10 then '+' :: '9' :: '1' :: cleaned else cleaned
      if cleaned ≠ [] then some (String.mk cleaned) else none

/-- `normalize_website` of the source.  The `urlparse` call is modelled by the
fragment the code inspects: after the protocol-prefix fix-up the string always
starts with `http://` or `https://`, the scheme is therefore non-empty, and
the netloc is the text between the protocol separator and the next `/`, `?`
or `#`. -/
def normalize_website (website : Option String) : Option String :=
  match website with
  | none => none
  | some w =>
    if w.data.isEmpty then none
    else
      let l := pyStripL w.data
      if l.length < 4 || l.contains ' ' then none
      else
        let httpPre := ['h', 't', 't', 'p', ':', '/', '/']
        let httpsPre := ['h', 't', 't', 'p', 's', ':', '/', '/']
        let l2 := if l.take 7 = httpPre || l.take 8 = httpsPre then l else httpsPre ++ l
        let rest := if l2.take 7 = httpPre then l2.drop 7 else l2.drop 8
        let netloc := rest.takeWhile (fun c => ¬(c = '/' ∨ c = '?' ∨ c = '#'))
        if netloc.isEmpty then none else some (String.mk (asciiLowerL l2))

/-- `clean_business_name` of the source: collapse whitespace, strip one
trailing parenthesised group, then one trailing bracketed group, remove all
double and single quotes, strip, and return `None` when the result is empty. -/
def clean_business_name (name : Option String) : Option String :=
  match name with
  | none => none
  | some n =>
    if n.data.isEmpty then none
    else
      let collapsed := joinSpace (splitWs (pyStripL n.data))
      if collapsed.isEmpty then none
      else
        let n1 := stripTrailingGroup '(' ')' collapsed
        let n2 := stripTrailingGroup '[' ']' n1
        let n3 := pyStripL ((n2.filter (fun c => c ≠ '"')).filter (fun c => c ≠ squote))
        if n3.isEmpty then none else some (String.mk n3)

/-- `get_address_string` of the source: the lowercased, stripped
`street|city` key, or `""` when the address dict is falsy. -/
def get_address_string (business : Business) : String :=
  if ¬ addrTruthy business.address then ""
  else
    match business.address with
    | none => ""
    | some a => lowerStripped a.street ++ "|" ++ lowerStripped a.city

/-- The `combination_key` computed inside `deduplicate_businesses`:
lowercased stripped name, a pipe, and the address key. -/
def combination_key (business : Business) : String :=
  String.mk (pyStripL (asciiLowerL (business.name.getD "").data)) ++ "|" ++
    get_address_string business

/-- The completeness score of the fuzzy pass: the number of truthy values
among name, contact and address. -/
def data_score (b : Business) : Nat :=
  (if strTruthy b.name then 1 else 0) + (if contactTruthy b.contact then 1 else 0) +
    (if addrTruthy b.address then 1 else 0)

/-- Method 3 of `deduplicate_businesses`: the candidate loses against some
already-accepted record with the same non-empty lowercased name and a
completeness score at least as large. -/
def fuzzy_loses (unique : List Business) (business : Business) : Bool :=
  unique.any fun existing =>
    let existing_name := asciiLowerL (existing.name.getD "").data
    let current_name := asciiLowerL (business.name.getD "").data
    decide (existing_name ≠ [] ∧ current_name ≠ [] ∧ existing_name = current_name ∧
      data_score business ≤ data_score existing)

/-- The four `continue` conditions of the loop body of
`deduplicate_businesses`, in source order. -/
def dedupRejects (seenHashes seenCombinations : List String) (unique : List Business)
    (business : Business) : Bool :=
  if business.is_valid = false then true
  else if business.get_hash_id ∈ seenHashes then true
  else if combination_key business ∈ seenCombinations ∧ get_address_string business ≠ "" then
    true
  else fuzzy_loses unique business

/-- The loop of `deduplicate_businesses`: the two seen-sets are modelled as
lists queried for membership, the accepted list grows at the back exactly as
the Python list does. -/
def dedupGo : List Business → List String → List String → List Business → List Business
  | [], _, _, unique => unique
  | business :: rest, seenHashes, seenCombinations, unique =>
    if dedupRejects seenHashes seenCombinations unique business then
      dedupGo rest seenHashes seenCombinations unique
    else
      dedupGo rest (business.get_hash_id :: seenHashes)
        (combination_key business :: seenCombinations) (unique ++ [business])

/-- `deduplicate_businesses` of the source. -/
def deduplicate_businesses (businesses : List Business) : List Business :=
  dedupGo businesses [] [] []

/-- A raw Overpass element: its kind string, numeric id, tag dictionary and
the direct or `center` coordinates (`data.get("elements", [])` entries). -/
structure Element where
  type_ : String
  id : Option Nat := none
  tags : List (String × String) := []
  lat : Option Rat := none
  lon : Option Rat := none
  center_lat : Option Rat := none
  center_lon : Option Rat := none

/-- Python `tags.get(key)` on the tag dictionary. -/
def tagsGet (tags : List (String × String)) (key : String) : Option String :=
  (tags.find? (fun kv => kv.1 == key)).map (fun kv => kv.2)

/-- The body of the extraction loop of `get_businesses`: one raw element to
at most one candidate `Business` (the `continue` paths give `none`).  `niche`
is the already stripped and lowercased category string the loop closes over. -/
def extract_element (niche : String) (element : Element) : Option Business :=
  let tags := element.tags
  let skip :=
    if ¬ strTruthy (tagsGet tags "name") ∧ ¬ strTruthy (tagsGet tags "brand") ∧
        ¬ strTruthy (tagsGet tags "operator") then
      let has_contact :=
        ["contact:phone", "phone", "contact:website", "website",
         "addr:street", "addr:city"].any fun key => strTruthy (tagsGet tags key)
      ¬ has_contact
    else False
  if skip then none
  else
    let raw_name := pyOr (tagsGet tags "name") (pyOr (tagsGet tags "brand") (tagsGet tags "operator"))
    let clean_name := clean_business_name raw_name
    let category :=
      pyOrStr (tagsGet tags "amenity")
        (pyOrStr (tagsGet tags "shop") (pyOrStr (tagsGet tags "tourism") niche))
    let phone := normalize_phone (pyOr (tagsGet tags "contact:phone") (tagsGet tags "phone"))
    let website :=
      normalize_website (pyOr (tagsGet tags "contact:website") (tagsGet tags "website"))
    let email := pyOr (tagsGet tags "contact:email") (tagsGet tags "email")
    let facebook := tagsGet tags "contact:facebook"
    let instagram := tagsGet tags "contact:instagram"
    let contact_data : Contact :=
      { phone := if strTruthy phone then phone else none
        website := if strTruthy website then website else none
        email := if strTruthy email then email else none
        facebook := if strTruthy facebook then facebook else none
        instagram := if strTruthy instagram then instagram else none }
    let contact := if contactTruthy (some contact_data) then some contact_data else none
    let street := tagsGet tags "addr:street"
    let city := pyOr (tagsGet tags "addr:city") (pyOr (tagsGet tags "addr:suburb") (tagsGet tags "addr:town"))
    let postcode := tagsGet tags "addr:postcode"
    let full_address := tagsGet tags "addr:full"
    let address_data : Address :=
      { street := if strTruthy street then street else none
        city := if strTruthy city then city else none
        postcode := if strTruthy postcode then postcode else none
        full := if strTruthy full_address then full_address else none }
    let address := if addrTruthy (some address_data) then some address_data else none
    let lat_coord := pyOrRat element.lat element.center_lat
    let lon_coord := pyOrRat element.lon element.center_lon
    let business : Business :=
      { name := clean_name
        category := some category
        brand := clean_business_name (tagsGet tags "brand")
        contact := contact
        opening_hours := tagsGet tags "opening_hours"
        address := address
        latitude := lat_coord
        longitude := lon_coord
        source_id := some (element.type_ ++ "_" ++
          (match element.id with | some n => toString n | none => "unknown")) }
    if strTruthy business.name ∨ strTruthy business.brand then some business else none

/-- The whole extraction loop: candidates in element order, skipped elements
produce nothing. -/
def extract_businesses (niche : String) (elements : List Element) : List Business :=
  elements.filterMap (extract_element niche)

/-- The `niche_mapping` synonym table of `get_businesses`. -/
def niche_mapping : List (String × String) :=
  [("restaurant", "restaurant"), ("cafe", "cafe"), ("coffee", "cafe"),
   ("coffee shop", "cafe"), ("hotel", "hotel"), ("motel", "motel"),
   ("pharmacy", "pharmacy"), ("drugstore", "pharmacy"), ("hospital", "hospital"),
   ("clinic", "clinic"), ("bank", "bank"), ("atm", "atm"),
   ("supermarket", "supermarket"), ("grocery", "supermarket"), ("mall", "mall"),
   ("shopping", "shop"), ("store", "shop"), ("gas", "fuel"),
   ("gas station", "fuel"), ("petrol", "fuel"), ("petrol pump", "fuel"),
   ("school", "school"), ("university", "university"), ("college", "college")]

/-- The information content of the Overpass QL text that `get_businesses`
interpolates: resolved category filter, radius in meters, and the center. -/
structure OverpassQuery where
  amenity_filter : String
  radius_meters : Int
  lat : Rat
  lon : Rat

/-- The key by which `get_businesses` sorts its result:
`(x.name or "").lower()`. -/
def sort_name_key (b : Business) : String :=
  String.mk (asciiLowerL (b.name.getD "").data)

/-- Stable insertion into a list sorted by `sort_name_key` (inserting after
equal keys, as Python stable sort keeps earlier elements first). -/
def insertByName (b : Business) : List Business → List Business
  | [] => [b]
  | x :: xs => if sort_name_key b < sort_name_key x then b :: x :: xs else x :: insertByName b xs

/-- Python `list.sort(key=lambda x: (x.name or "").lower())`: a stable sort
by the lowercased name. -/
def sortByName (l : List Business) : List Business := l.foldr insertByName []

/-- `get_businesses` of the source.  The network fetch is an explicit
collaborator: `fetch query = none` is the terminal
`make_overpass_request` failure that the code catches and turns into an empty
result, `some elements` is a parsed response.  Raised `ValueError`s are
`Except.error` with the source message.  Python `float()` conversion of the
already numeric arguments cannot fail and is the identity.  `int(radius_km *
1000)` truncates, which is `Rat.floor` for the positive radii that reach it.
The final per-record serialisation to a dict with the `None` keys dropped is
not modelled; the result is the sorted unique record list itself. -/
def get_businesses (fetch : OverpassQuery → Option (List Element))
    (lat lon radius_km : Rat) (niche : String) : Except String (List Business) :=
  if niche = "" ∨ String.mk (pyStripL niche.data) = "" then
    Except.error "Niche parameter is required"
  else if radius_km ≤ 0 ∨ 50 < radius_km then
    Except.error "Radius must be between 0.1 and 50 km"
  else
    let niche2 := String.mk (asciiLowerL (pyStripL niche.data))
    let amenity_filter := (List.lookup niche2 niche_mapping).getD niche2
    let radius_meters : Int := (radius_km * 1000).floor
    let query : OverpassQuery := ⟨amenity_filter, radius_meters, lat, lon⟩
    match fetch query with
    | none => Except.ok []
    | some elements =>
      Except.ok (sortByName (deduplicate_businesses (extract_businesses niche2 elements)))

/-- One parsed entry of the Nominatim JSON array (geocode.py reads
`data[0]["lat"]` and `data[0]["lon"]`, strings holding decimal numbers,
modelled as the rationals they denote). -/
structure GeoResult where
  lat : Rat
  lon : Rat
deriving DecidableEq

/-- `get_coordinates` of `src/app/services/geocode.py`.  The HTTP collaborator
returns the parsed JSON array on success; `Except.error` is a transport
failure or the `raise_for_status()` raise, which the function does not catch
and therefore propagates. -/
def get_coordinates (http : String → Except String (List GeoResult))
    (location : String) : Except String (Option (Rat × Rat)) :=
  match http location with
  | Except.error e => Except.error e
  | Except.ok [] => Except.ok none
  | Except.ok (r :: _) => Except.ok (some (r.lat, r.lon))

/-- The response body of the `/find-businesses` route. -/
structure FindResponse where
  count : Nat
  businesses : List Business
deriving DecidableEq

/-- `find_businesses` of `src/app/main.py`: geocode, degrade to a zero-count
response when the geocoder finds nothing, otherwise delegate to
`get_businesses`.  Exceptions escaping `get_coordinates` or `get_businesses`
propagate to the framework (an error response to the caller). -/
def find_businesses (http : String → Except String (List GeoResult))
    (fetch : OverpassQuery → Option (List Element))
    (niche location : String) (radius_km : Rat) : Except String FindResponse :=
  match get_coordinates http location with
  | Except.error e => Except.error e
  | Except.ok none => Except.ok ⟨0, []⟩
  | Except.ok (some (lat, lon)) =>
    match get_businesses fetch lat lon radius_km niche with
    | Except.error e => Except.error e
    | Except.ok businesses => Except.ok ⟨businesses.length, businesses⟩

/-- First raw element of the Central Bank scenario: name and address, no
contact info. -/
def centralBank1 : Element :=
  { type_ := "node", id := some 1,
    tags := [("name", "Central Bank"), ("addr:street", "MG Road"), ("addr:city", "Pune")],
    lat := some 19, lon := some 73 }

/-- Second raw element of the Central Bank scenario: identical name and
address, plus a phone number. -/
def centralBank2 : Element :=
  { type_ := "node", id := some 2,
    tags := [("name", "Central Bank"), ("phone", "9876543210"),
             ("addr:street", "MG Road"), ("addr:city", "Pune")],
    lat := some 19, lon := some 73 }

theorem dedupRejects_false_facts (sH sC : List String) (u : List Business) (b : Business)
    (h : dedupRejects sH sC u b = false) :
    b.is_valid = true ∧ b.get_hash_id ∉ sH := by
  unfold dedupRejects at h
  split_ifs at h with h1 h2 h3
  refine ⟨?_, h2⟩
  revert h1
  cases b.is_valid <;> simp

theorem dedupGo_cons_reject (rest : List Business) (sH sC : List String)
    (acc : List Business) (b : Business) (h : dedupRejects sH sC acc b = true) :
    dedupGo (b :: rest) sH sC acc = dedupGo rest sH sC acc := by
  simp [dedupGo, h]

theorem dedupGo_cons_accept (rest : List Business) (sH sC : List String)
    (acc : List Business) (b : Business) (h : dedupRejects sH sC acc b = false) :
    dedupGo (b :: rest) sH sC acc =
      dedupGo rest (b.get_hash_id :: sH) (combination_key b :: sC) (acc ++ [b]) := by
  simp [dedupGo, h]

theorem dedupGo_extends (pending : List Business) :
    ∀ sH sC acc, ∃ t, dedupGo pending sH sC acc = acc ++ t := by
  induction pending with
  | nil => intro sH sC acc; exact ⟨[], by simp [dedupGo]⟩
  | cons b rest ih =>
    intro sH sC acc
    by_cases h : dedupRejects sH sC acc b
    · obtain ⟨t, ht⟩ := ih sH sC acc
      exact ⟨t, by rw [dedupGo_cons_reject rest sH sC acc b h, ht]⟩
    · obtain ⟨t, ht⟩ :=
        ih (b.get_hash_id :: sH) (combination_key b :: sC) (acc ++ [b])
      refine ⟨b :: t, ?_⟩
      rw [dedupGo_cons_accept rest sH sC acc b (by simpa using h), ht,
        List.append_assoc]
      rfl

theorem dedupGo_replay (pending : List Business) :
    ∀ sH sC acc,
      dedupGo ((dedupGo pending sH sC acc).drop acc.length) sH sC acc =
        dedupGo pending sH sC acc := by
  induction pending with
  | nil => intro sH sC acc; simp [dedupGo, List.drop_length]
  | cons b rest ih =>
    intro sH sC acc
    by_cases h : dedupRejects sH sC acc b
    · rw [dedupGo_cons_reject rest sH sC acc b h]
      exact ih sH sC acc
    · have h' : dedupRejects sH sC acc b = false := by simpa using h
      obtain ⟨t, ht⟩ :=
        dedupGo_extends rest (b.get_hash_id :: sH) (combination_key b :: sC) (acc ++ [b])
      have hout : dedupGo (b :: rest) sH sC acc = acc ++ b :: t := by
        rw [dedupGo_cons_accept rest sH sC acc b h', ht, List.append_assoc]
        rfl
      rw [hout, List.drop_left]
      rw [dedupGo_cons_accept t sH sC acc b h']
      have ih2 := ih (b.get_hash_id :: sH) (combination_key b :: sC) (acc ++ [b])
      rw [ht, List.drop_left] at ih2
      rw [ih2, List.append_assoc]
      rfl

theorem dedupGo_hash_pairwise (pending : List Business) :
    ∀ sH sC acc, (∀ b ∈ acc, b.get_hash_id ∈ sH) →
      acc.Pairwise (fun a b => a.get_hash_id ≠ b.get_hash_id) →
      (dedupGo pending sH sC acc).Pairwise (fun a b => a.get_hash_id ≠ b.get_hash_id) := by
  induction pending with
  | nil => intro sH sC acc _ hp; simpa [dedupGo] using hp
  | cons b rest ih =>
    intro sH sC acc hmem hp
    by_cases h : dedupRejects sH sC acc b
    · rw [dedupGo_cons_reject rest sH sC acc b h]
      exact ih sH sC acc hmem hp
    · have h' : dedupRejects sH sC acc b = false := by simpa using h
      have hfacts := dedupRejects_false_facts sH sC acc b h'
      rw [dedupGo_cons_accept rest sH sC acc b h']
      apply ih
      · intro x hx
        rcases List.mem_append.mp hx with hx | hx
        · exact List.mem_cons_of_mem _ (hmem x hx)
        · rw [List.mem_singleton.mp hx]
          exact List.mem_cons_self _ _
      · rw [List.pairwise_append]
        refine ⟨hp, List.pairwise_singleton _ _, ?_⟩
        intro a ha c hc
        rw [List.mem_singleton.mp hc]
        exact fun heq => hfacts.2 (heq ▸ hmem a ha)

theorem dedupGo_all_valid (pending : List Business) :
    ∀ sH sC acc, (∀ b ∈ acc, b.is_valid = true) →
      ∀ b ∈ dedupGo pending sH sC acc, b.is_valid = true := by
  induction pending with
  | nil => intro sH sC acc hv; simpa [dedupGo] using hv
  | cons b rest ih =>
    intro sH sC acc hv
    by_cases h : dedupRejects sH sC acc b
    · rw [dedupGo_cons_reject rest sH sC acc b h]
      exact ih sH sC acc hv
    · have h' : dedupRejects sH sC acc b = false := by simpa using h
      have hfacts := dedupRejects_false_facts sH sC acc b h'
      rw [dedupGo_cons_accept rest sH sC acc b h']
      apply ih
      intro x hx
      rcases List.mem_append.mp hx with hx | hx
      · exact hv x hx
      · rw [List.mem_singleton.mp hx]
        exact hfacts.1

/-- C2: deduplication is idempotent — applying `deduplicate_businesses` to
its own output returns that output unchanged, for every input list. -/
theorem deduplicate_businesses_idempotent (x : List Business) :
    deduplicate_businesses (deduplicate_businesses x) = deduplicate_businesses x := by
  have h := dedupGo_replay x [] [] []
  simpa [deduplicate_businesses] using h

/-- C3: no two records of the output of `deduplicate_businesses` share an
identity hash — the hashes of the output list are pairwise distinct, for
every input list. -/
theorem deduplicate_businesses_hashes_pairwise_distinct (x : List Business) :
    (deduplicate_businesses x).Pairwise
      (fun a b => a.get_hash_id ≠ b.get_hash_id) := by
  unfold deduplicate_businesses
  exact dedupGo_hash_pairwise x [] [] [] (by simp) (by simp)

/-- C4: every record in the output of `deduplicate_businesses` satisfies
`is_valid` (a truthy name or brand, a lowercased trimmed name that is not a
generic placeholder and is longer than two characters), for every input
list. -/
theorem deduplicate_businesses_all_valid (x : List Business) :
    ∀ b ∈ deduplicate_businesses x, b.is_valid = true := by
  unfold deduplicate_businesses
  exact dedupGo_all_valid x [] [] [] (by simp)

/-- C4 witness: a record surviving deduplication of a concrete list is
valid. -/
theorem deduplicate_businesses_all_valid_witness :
    ({ name := some "Central Bank" } : Business).is_valid = true :=
  deduplicate_businesses_all_valid [{ name := some "Central Bank" }]
    { name := some "Central Bank" } (by decide)

/-- First Business of the same-name scenario: name and category only. -/
def alphaCafe1 : Business := { name := some "Alpha Cafe", category := some "cafe" }

/-- Second Business of the same-name scenario: same name and category, plus
contact and address, hence a strictly higher completeness score and a
different identity hash. -/
def alphaCafe2 : Business :=
  { name := some "Alpha Cafe", category := some "cafe",
    contact := some { phone := some "+911234567890" },
    address := some { street := some "MG Road" } }

/-- C1 counterexample: running the two Central Bank elements through
extraction and deduplication yields a single record whose contact is `None` —
the first-extracted, phone-less record — although the second extracted
candidate did carry the phone number; the claim says the output record is the
one with the phone. -/
theorem central_bank_dedup_keeps_first_counterexample :
    (extract_businesses "bank" [centralBank1, centralBank2]).map Business.contact =
        [none, some { phone := some "+919876543210" }] ∧
      (deduplicate_businesses (extract_businesses "bank" [centralBank1, centralBank2])).map
          Business.contact = [none] :=
  ⟨by decide, by decide⟩

/-- C1 amended: the deduplicated output contains exactly one record for
Central Bank, namely the first-extracted one, which carries no phone number:
the identity hash ignores contact information, so the later and more complete
record is dropped by the seen-hash check and never replaces the accepted
one. -/
theorem central_bank_dedup_keeps_first :
    deduplicate_businesses (extract_businesses "bank" [centralBank1, centralBank2]) =
      extract_businesses "bank" [centralBank1] := by decide

/-- C9: a record whose name is absent (`None` or the empty string) is
classified invalid by `is_valid` even when a brand is present, because the
generic-placeholder check runs against the empty-string name. -/
theorem brand_only_record_invalid (b : Business)
    (hname : b.name = none ∨ b.name = some "")
    (hbrand : strTruthy b.brand = true) :
    b.is_valid = false := by
  have hlower : String.mk (pyStripL (asciiLowerL (b.name.getD "").data)) = "" := by
    rcases hname with h | h <;> rw [h] <;> rfl
  simp only [Business.is_valid, hlower, hbrand]
  simp only [not_true, and_false, if_false]
  rw [if_pos (Or.inl (by decide))]

/-- C9 witness: a concrete brand-only record is invalid. -/
theorem brand_only_record_invalid_witness :
    ({ name := none, brand := some "Nike" } : Business).is_valid = false :=
  brand_only_record_invalid _ (Or.inl rfl) (by decide)

/-- C10: deduplication does not guarantee name uniqueness — for the two
records above, which share the lowercased name but have distinct identity
hashes and combination keys, and where the later candidate has the strictly
higher completeness score, the output keeps both. -/
theorem dedup_can_keep_two_same_named_records :
    deduplicate_businesses [alphaCafe1, alphaCafe2] = [alphaCafe1, alphaCafe2] ∧
      alphaCafe1 ≠ alphaCafe2 ∧
      asciiLowerL (alphaCafe1.name.getD "").data =
        asciiLowerL (alphaCafe2.name.getD "").data ∧
      alphaCafe1.get_hash_id ≠ alphaCafe2.get_hash_id ∧
      data_score alphaCafe1 < data_score alphaCafe2 :=
  ⟨by decide, by decide, by decide, by decide, by decide⟩

/-- Modelled from the words of claim C5, for comparison with the code: strip
all characters except digits and a LEADING plus sign; rewrite a leading `00`
to `+`; prepend `+91` only when the cleaned result is exactly ten digits
without a country code; `None` when the cleaned string is empty. -/
def normalize_phone_claimed (p : String) : Option String :=
  let digits := p.data.filter Char.isDigit
  let cleaned := if p.data.take 1 = ['+'] then '+' :: digits else digits
  let cleaned := if cleaned.take 2 = ['0', '0'] then '+' :: cleaned.drop 2 else cleaned
  let cleaned :=
    if cleaned.length = 10 ∧ cleaned.all Char.isDigit then '+' :: '9' :: '1' :: cleaned
    else cleaned
  if cleaned.isEmpty then none else some (String.mk cleaned)

/-- C5 counterexample: on `"+123456789"` the code keeps the plus and still
prepends the country code, because its test is only that the cleaned string
has length ten; the claim's description leaves the string alone since it is
not ten digits without a country code. -/
theorem normalize_phone_leading_plus_counterexample :
    normalize_phone (some "+123456789") = some "+91+123456789" ∧
      normalize_phone_claimed "+123456789" = some "+123456789" ∧
      normalize_phone (some "+123456789") ≠ normalize_phone_claimed "+123456789" :=
  ⟨by decide, by decide, by decide⟩

/-- Modelled from the amended specification text of C5: every plus sign is
kept, not only a leading one, and the `+91` prefix is added exactly when the
cleaned text has length ten, whatever its characters are. -/
def normalize_phone_amended_spec (p : String) : Option String :=
  if p.data.isEmpty then none
  else
    let kept := p.data.filter (fun c => c.isDigit || c = '+')
    let kept := if kept.take 2 = ['0', '0'] then '+' :: kept.drop 2 else kept
    let kept := if kept.length = 10 then '+' :: '9' :: '1' :: kept else kept
    if kept.isEmpty then none else some (String.mk kept)

/-- C5 amended: `normalize_phone` agrees everywhere with the amended
description, and the three examples of the claim all hold. -/
theorem normalize_phone_amended_characterization :
    (∀ p : String, normalize_phone (some p) = normalize_phone_amended_spec p) ∧
      normalize_phone (some "9876543210") = some "+919876543210" ∧
      normalize_phone (some "00919876543210") = some "+919876543210" ∧
      normalize_phone (some "") = none := by
  refine ⟨?_, by decide, by decide, by decide⟩
  intro p
  simp only [normalize_phone, normalize_phone_amended_spec]
  by_cases hempty : p.data.isEmpty
  · simp [hempty]
  · simp only [hempty, if_false, Bool.false_eq_true]
    generalize (p.data.filter fun c => c.isDigit || c = '+') = l0
    generalize (if l0.take 2 = ['0', '0'] then '+' :: l0.drop 2 else l0) = l1
    by_cases h10 : l1.length = 10
    · have hne : l1 ≠ [] := by intro h; rw [h] at h10; exact absurd h10 (by decide)
      simp [h10, hne]
    · simp only [h10, and_false, if_false]
      cases l1 <;> simp

/-- Modelled from the words of claim C6, for comparison with the code: after
the whitespace collapse a SINGLE trailing group — parenthesised, or else
bracketed — is stripped, then all quotes are removed and the result is
trimmed, `None` if empty. -/
def clean_business_name_claimed (n : String) : Option String :=
  if n.data.isEmpty then none
  else
    let collapsed := joinSpace (splitWs (pyStripL n.data))
    if collapsed.isEmpty then none
    else
      let g :=
        if stripTrailingGroup '(' ')' collapsed ≠ collapsed then
          stripTrailingGroup '(' ')' collapsed
        else stripTrailingGroup '[' ']' collapsed
      let n3 := pyStripL ((g.filter (fun c => c ≠ '"')).filter (fun c => c ≠ squote))
      if n3.isEmpty then none else some (String.mk n3)

/-- C6 counterexample: on `"A [b] (c)"` the code strips the trailing
parenthesised group AND then the newly trailing bracketed group, giving
`"A"`, while the claim's single-group description gives `"A [b]"`. -/
theorem clean_business_name_single_group_counterexample :
    clean_business_name (some "A [b] (c)") = some "A" ∧
      clean_business_name_claimed "A [b] (c)" = some "A [b]" ∧
      clean_business_name (some "A [b] (c)") ≠ clean_business_name_claimed "A [b] (c)" :=
  ⟨by decide, by decide, by decide⟩

/-- Modelled from the amended specification text of C6: at most one trailing
parenthesised group is stripped, and afterwards at most one trailing
bracketed group, in that order; then every double and single quote is
dropped. -/
def clean_business_name_amended_spec (n : String) : Option String :=
  if n.data.isEmpty then none
  else
    let collapsed := joinSpace (splitWs (pyStripL n.data))
    if collapsed.isEmpty then none
    else
      let afterParen := stripTrailingGroup '(' ')' collapsed
      let afterBracket := stripTrailingGroup '[' ']' afterParen
      let unquoted := pyStripL (afterBracket.filter (fun c => ¬(c = '"' ∨ c = squote)))
      if unquoted.isEmpty then none else some (String.mk unquoted)

theorem quote_filter_eq (l : List Char) :
    (l.filter (fun c => c ≠ '"')).filter (fun c => c ≠ squote) =
      l.filter (fun c => ¬(c = '"' ∨ c = squote)) := by
  rw [List.filter_filter]
  congr 1
  funext c
  by_cases h1 : c = '"' <;> by_cases h2 : c = squote <;> simp [h1, h2]

/-- C6 amended: `clean_business_name` agrees everywhere with the amended
description, the Joe example of the claim holds, and the two order examples
show one group of each kind can be stripped, paren group first. -/
theorem clean_business_name_amended_characterization :
    (∀ n : String, clean_business_name (some n) = clean_business_name_amended_spec n) ∧
      clean_business_name (some ("Joe" ++ String.mk [squote] ++ "s Cafe (Closed)")) =
        some "Joes Cafe" ∧
      clean_business_name (some "A [b] (c)") = some "A" ∧
      clean_business_name (some "A (b) [c]") = some "A (b)" := by
  refine ⟨?_, by decide, by decide, by decide⟩
  intro n
  simp only [clean_business_name, clean_business_name_amended_spec, quote_filter_eq]

/-- C7: whatever the fetch collaborator would do, `get_businesses` returns a
`ValueError`-style validation error — never touching the network — whenever
the radius is non-positive or above 50 km, or the category is empty after
trimming (with numeric arguments the float conversions cannot fail, so the
convertibility clause cannot fire). -/
theorem get_businesses_invalid_args_error (fetch : OverpassQuery → Option (List Element))
    (lat lon radius_km : Rat) (niche : String)
    (h : radius_km ≤ 0 ∨ 50 < radius_km ∨ String.mk (pyStripL niche.data) = "") :
    ∃ msg, get_businesses fetch lat lon radius_km niche = Except.error msg := by
  unfold get_businesses
  by_cases h1 : niche = "" ∨ String.mk (pyStripL niche.data) = ""
  · rw [if_pos h1]
    exact ⟨_, rfl⟩
  · rw [if_neg h1]
    have h2 : radius_km ≤ 0 ∨ 50 < radius_km := by
      rcases h with h | h | h
      · exact Or.inl h
      · exact Or.inr h
      · exact absurd (Or.inr h) h1
    rw [if_pos h2]
    exact ⟨_, rfl⟩

/-- C7 witness: radius 60 km yields a validation error with a fetch stub in
place. -/
theorem get_businesses_invalid_args_error_witness :
    ∃ msg, get_businesses (fun _ => some []) 19 72 60 "bank" = Except.error msg :=
  get_businesses_invalid_args_error (fun _ => some []) 19 72 60 "bank"
    (Or.inr (Or.inl (by decide)))

/-- C8 counterexample: a geocoding transport or HTTP-status failure — the
`raise_for_status()` path of `get_coordinates` — propagates out of
`find_businesses` as a hard error instead of the zero-count empty-list
response the claim promises for every geocoding failure. -/
theorem find_businesses_geocode_error_counterexample :
    find_businesses (fun _ => Except.error "HTTP 503") (fun _ => some []) "bank" "Pune" 5 =
        Except.error "HTTP 503" ∧
      (Except.error "HTTP 503" : Except String FindResponse) ≠ Except.ok ⟨0, []⟩ :=
  ⟨rfl, by simp⟩

/-- C8 amended: a geocoder returning no result degrades to the zero-count
empty-list response, and so does a terminal fetch failure of the POI query
under well-formed parameters; only a raised geocoder exception (or invalid
request parameters) surfaces as a hard error. -/
theorem find_businesses_degrades_to_empty :
    (∀ (fetch : OverpassQuery → Option (List Element))
        (http : String → Except String (List GeoResult))
        (niche location : String) (radius_km : Rat),
        http location = Except.ok [] →
        find_businesses http fetch niche location radius_km = Except.ok ⟨0, []⟩) ∧
      (∀ (http : String → Except String (List GeoResult))
          (niche location : String) (radius_km : Rat) (geodata : List GeoResult),
          http location = Except.ok geodata →
          String.mk (pyStripL niche.data) ≠ "" →
          0 < radius_km → radius_km ≤ 50 →
          find_businesses http (fun _ => none) niche location radius_km =
            Except.ok ⟨0, []⟩) := by
  constructor
  · intro fetch http niche location radius_km hhttp
    unfold find_businesses get_coordinates
    rw [hhttp]
  · intro http niche location radius_km geodata hhttp hn hr0 hr50
    unfold find_businesses get_coordinates
    rw [hhttp]
    cases geodata with
    | nil => rfl
    | cons r rest =>
      have h1 : ¬(niche = "" ∨ String.mk (pyStripL niche.data) = "") := by
        rintro (h | h)
        · exact hn (by rw [h]; rfl)
        · exact hn h
      have h2 : ¬(radius_km ≤ 0 ∨ 50 < radius_km) := by
        rintro (h | h)
        · exact absurd hr0 (not_lt.mpr h)
        · exact absurd hr50 (not_le.mpr h)
      unfold get_businesses
      simp only [if_neg h1, if_neg h2]
      rfl

/-- C8 witness: the two degradation cases at concrete inputs. -/
theorem find_businesses_degrades_to_empty_witness :
    find_businesses (fun _ => Except.ok []) (fun _ => some []) "bank" "Nowhere" 5 =
        Except.ok ⟨0, []⟩ ∧
      find_businesses (fun _ => Except.ok [⟨19, 72⟩]) (fun _ => none) "bank" "Pune" 5 =
        Except.ok ⟨0, []⟩ :=
  ⟨find_businesses_degrades_to_empty.1 (fun _ => some []) (fun _ => Except.ok [])
      "bank" "Nowhere" 5 rfl,
    find_businesses_degrades_to_empty.2 (fun _ => Except.ok [⟨19, 72⟩]) "bank" "Pune" 5
      [⟨19, 72⟩] rfl (by decide) (by decide) (by decide)⟩

